import Mathlib

/-!
Shallow embedding of the manga PDF pipeline: the image validator
(validateImageFile), the three-tier image repair engine
(preprocessProblematicImage / emergencyImageRecovery) and the document
assembler (createMangaPDF). External effectful collaborators (the sharp
image library, PDFKit, the filesystem) are modelled as oracle functions
supplied in a record; operations the code wraps in its own try/catch
blocks are modelled fallible (Except), operations it calls without local
handling (addPage with fixed numeric sizes, unlinkSync of a
just-written file, the report write) are modelled total.
-/

namespace MangaScraper

/-- JS startsWith on element sequences: true when the second list is an
initial segment of the first. -/
def seqStartsWith {α : Type} [BEq α] : List α → List α → Bool
  | _, [] => true
  | [], _ :: _ => false
  | c :: cs, p :: ps => c == p && seqStartsWith cs ps

/-- JS includes on element sequences: true when the second list occurs
contiguously anywhere inside the first. -/
def seqContains {α : Type} [BEq α] : List α → List α → Bool
  | [], pat => pat.isEmpty
  | c :: rest, pat => seqStartsWith (c :: rest) pat || seqContains rest pat

/-- JS endsWith on element sequences. -/
def seqEndsWith {α : Type} [BEq α] (s pat : List α) : Bool :=
  seqStartsWith s.reverse pat.reverse

/-- Buffer.toString with hex encoding, as the list of hex digit values:
each byte contributes its high nibble then its low nibble. -/
def hexNibbles (bytes : List Nat) : List Nat :=
  bytes.flatMap (fun b => [b / 16 % 16, b % 16])

/-- Hex digits of the JPEG signature ff d8 ff. -/
def jpegSig : List Nat := [15, 15, 13, 8, 15, 15]

/-- Hex digits of the PNG signature 89 50 4e 47. -/
def pngSig : List Nat := [8, 9, 5, 0, 4, 14, 4, 7]

/-- Hex digits of the GIF signature 47 49 46. -/
def gifSig : List Nat := [4, 7, 4, 9, 4, 6]

/-- Hex digits of the WEBP marker 57 45 42 50. -/
def webpSig : List Nat := [5, 7, 4, 5, 4, 2, 5, 0]

/-- Signature test of validateImageFile: the hex dump starts with the
JPEG, PNG or GIF signature, or contains the WEBP marker anywhere.
Note fs.readFileSync ignores start and end options (those belong to
createReadStream), so the hex dump covers the whole file. -/
def hasImageSig (bytes : List Nat) : Bool :=
  let hex := hexNibbles bytes
  seqStartsWith hex jpegSig || seqStartsWith hex pngSig ||
    seqStartsWith hex gifSig || seqContains hex webpSig

/-- Result record of validateImageFile. -/
structure ValidationResult where
  valid : Bool
  reason : Option String := none
deriving Repr, DecidableEq

/-- Embedding of validateImageFile. A file is seen as either an access
error message (statSync or readFileSync throwing) or its byte content;
size is the byte count. -/
def validateImageFile (file : Except String (List Nat)) : ValidationResult :=
  match file with
  | .error e => { valid := false, reason := some ("File access error: " ++ e) }
  | .ok bytes =>
    if bytes.length == 0 then
      { valid := false, reason := some "Empty file (0 bytes)" }
    else if bytes.length < 100 then
      { valid := false, reason := some "File too small (likely corrupted)" }
    else if !hasImageSig bytes then
      { valid := false, reason := some "Invalid file header (not a recognized image format)" }
    else
      { valid := true }

/-- Metadata record returned by the sharp metadata call. -/
structure SharpMetadata where
  isProgressive : Bool
  format : String
  width : Nat
  height : Nat
deriving Repr, DecidableEq

/-- Dimensions, scan mode and quality of an image written by a sharp
encode pipeline. -/
structure OutSpec where
  width : Nat
  height : Nat
  progressive : Bool
  quality : Nat
deriving Repr, DecidableEq

/-- Model of sharp resize with fit inside and withoutEnlargement: scale
the w by h raster down, preserving aspect ratio, until it fits within
the boxW by boxH target box; never enlarge. -/
def fitInside (w h boxW boxH : Nat) : Nat × Nat :=
  if w ≤ boxW && h ≤ boxH then (w, h)
  else if boxH * w ≤ boxW * h then (w * boxH / h, boxH)
  else (boxW, h * boxW / w)

/-- Image written by the tier 1 re-encode: jpeg quality 92 baseline,
resized to width metadata.width and height min(metadata.height, 8000)
with fit inside and withoutEnlargement. -/
def tier1Output (md : SharpMetadata) : OutSpec :=
  let dims := fitInside md.width md.height md.width (min md.height 8000)
  { width := dims.1, height := dims.2, progressive := false, quality := 92 }

/-- Image written by the tier 3 placeholder: a created 720 by 1000
canvas encoded as jpeg quality 90 baseline. -/
def placeholderOutput : OutSpec :=
  { width := 720, height := 1000, progressive := false, quality := 90 }

/-- Oracle for the sharp library calls made by the repair engine, keyed
by input path. Fallible calls return an error message when they throw. -/
structure ImageOps where
  metadata : String → Except String SharpMetadata
  tier1Encode : String → Except String Unit
  recoveryEncode : String → Except String Unit
  recoveryOut : String → OutSpec
  statSize : String → Except String Nat
  placeholderWrite : String → Except String Unit

/-- Result record of the repair engine, mirroring the JS object keys
success, fixedPath, reason, originalFormat, originalSize, error. -/
structure RepairResult where
  success : Bool
  fixedPath : Option String := none
  reason : Option String := none
  originalFormat : Option String := none
  originalSize : Option String := none
  error : Option String := none
deriving Repr, DecidableEq

/-- Observable effects of one repair run: the files written (path and
image spec) and which tiers were entered (1 = normalize, 2 = emergency
decode, 3 = placeholder). -/
structure RepairLog where
  writes : List (String × OutSpec) := []
  tiersEntered : List Nat := []
deriving Repr, DecidableEq

/-- Trigger condition of tier 1: progressive, or webp container, or
height over 10000, or pixel count over 50000000. -/
def needsFix (md : SharpMetadata) : Bool :=
  md.isProgressive || md.format == "webp" ||
    decide (10000 < md.height) || decide (50000000 < md.width * md.height)

/-- Reason string reported by tier 1, first firing predicate wins. -/
def fixReason (md : SharpMetadata) : String :=
  if md.isProgressive then "Progressive JPEG"
  else if md.format == "webp" then "WebP format"
  else if decide (10000 < md.height) then "Very tall image"
  else "Very large image"

/-- Embedding of emergencyImageRecovery: strategy 1 retries the decode
with corruption-tolerant settings and writes a recovered jpeg; if it
throws, strategy 2 reads the file size and writes a 720 by 1000
placeholder; if that also throws the combined error is raised. -/
def emergencyImageRecovery (ops : ImageOps) (p : String) :
    Except String RepairResult × RepairLog :=
  let out := p ++ ".recovered.jpg"
  match ops.recoveryEncode p with
  | .ok _ =>
    (.ok { success := true, fixedPath := some out,
           reason := some "Emergency recovery (corrupted JPEG)",
           originalFormat := some "jpeg (corrupted)",
           originalSize := some "unknown (corrupted)" },
     { writes := [(out, ops.recoveryOut p)], tiersEntered := [2] })
  | .error s1 =>
    match ops.statSize p with
    | .ok size =>
      match ops.placeholderWrite out with
      | .ok _ =>
        (.ok { success := true, fixedPath := some out,
               reason := some "Placeholder for corrupted image",
               originalFormat := some "corrupted",
               originalSize := some (toString size ++ " bytes (corrupted)") },
         { writes := [(out, placeholderOutput)], tiersEntered := [2, 3] })
      | .error s2 =>
        (.error ("All recovery strategies failed: " ++ s1 ++ " | " ++ s2),
         { writes := [], tiersEntered := [2, 3] })
    | .error s2 =>
      (.error ("All recovery strategies failed: " ++ s1 ++ " | " ++ s2),
       { writes := [], tiersEntered := [2, 3] })

/-- Catch clause of preprocessProblematicImage: after the tier 1 block
throws with message e, emergencyImageRecovery is attempted; if it also
throws, the hard failure bundles both messages. -/
def recoverAfter (ops : ImageOps) (p e : String) : RepairResult × RepairLog :=
  match emergencyImageRecovery ops p with
  | (.ok r, log) => (r, { log with tiersEntered := 1 :: log.tiersEntered })
  | (.error recMsg, log) =>
    ({ success := false,
       error := some ("Sharp failed: " ++ e ++ ", Recovery failed: " ++ recMsg) },
     { log with tiersEntered := 1 :: log.tiersEntered })

/-- Embedding of preprocessProblematicImage: tier 1 decodes metadata
and, when a trigger predicate holds, re-encodes to path.fixed.jpg; when
none holds it passes through; when the metadata decode or the re-encode
throws, control moves to emergencyImageRecovery. -/
def preprocessProblematicImage (ops : ImageOps) (p : String) :
    RepairResult × RepairLog :=
  match ops.metadata p with
  | .ok md =>
    if needsFix md then
      match ops.tier1Encode p with
      | .ok _ =>
        let out := p ++ ".fixed.jpg"
        ({ success := true, fixedPath := some out, reason := some (fixReason md),
           originalFormat := some md.format,
           originalSize := some (toString md.width ++ "x" ++ toString md.height) },
         { writes := [(out, tier1Output md)], tiersEntered := [1] })
      | .error e => recoverAfter ops p e
    else
      ({ success := true, fixedPath := none }, { writes := [], tiersEntered := [1] })
  | .error e => recoverAfter ops p e

/-- Message with which the tier 1 try block throws, when it throws:
either the metadata decode error or, when a trigger predicate holds,
the re-encode error. none when tier 1 completes. -/
def tier1Failure (ops : ImageOps) (p : String) : Option String :=
  match ops.metadata p with
  | .error e => some e
  | .ok md =>
    if needsFix md then
      match ops.tier1Encode p with
      | .error e => some e
      | .ok _ => none
    else none

/-- Message with which strategy 2 (placeholder synthesis) throws, when
it throws: either the statSync error or the placeholder write error. -/
def strategy2Failure (ops : ImageOps) (p : String) : Option String :=
  match ops.statSize p with
  | .error e => some e
  | .ok _ =>
    match ops.placeholderWrite (p ++ ".recovered.jpg") with
    | .error e => some e
    | .ok _ => none

/-- A pattern found in a suffix is found in the whole sequence. -/
theorem seqContains_append_right {α : Type} [BEq α] (a b pat : List α)
    (h : seqContains b pat = true) : seqContains (a ++ b) pat = true := by
  induction a with
  | nil => exact h
  | cons c cs ih =>
    rw [List.cons_append]
    unfold seqContains
    rw [ih, Bool.or_true]

/-- Numeric value of an ASCII digit character. -/
def digitVal (c : Char) : Nat := c.toNat - 48

/-- Longest run of leading digit characters. -/
def leadingDigits : List Char → List Char
  | [] => []
  | c :: cs => if c.isDigit then c :: leadingDigits cs else []

/-- First maximal run of digit characters anywhere in the list, if any,
mirroring the regex match for one or more digits. -/
def firstDigitRun : List Char → Option (List Char)
  | [] => none
  | c :: cs => if c.isDigit then some (c :: leadingDigits cs) else firstDigitRun cs

/-- Decimal value of a digit character list. -/
def natOfDigits (ds : List Char) : Nat :=
  ds.foldl (fun n c => n * 10 + digitVal c) 0

/-- Sort key used for chapters and images: parseInt of the first
embedded digit run, defaulting to 0 when the name has no digits. -/
def firstNat (s : String) : Nat :=
  match firstDigitRun s.data with
  | none => 0
  | some ds => natOfDigits ds

/-- Comparator relation of the numeric sort. -/
def numLE (a b : String) : Prop := firstNat a ≤ firstNat b

instance : DecidableRel numLE := fun a b => Nat.decLe (firstNat a) (firstNat b)

instance : IsTotal String numLE := ⟨fun a b => Nat.le_total (firstNat a) (firstNat b)⟩

instance : IsTrans String numLE := ⟨fun _ _ _ hab hbc => Nat.le_trans hab hbc⟩

/-- Stable ascending sort by the first embedded integer, the observable
behavior of the JS sort with the numA minus numB comparator (stable per
the language standard). -/
def sortByNum (l : List String) : List String := List.insertionSort numLE l

/-- Lower-cased character list of a string, for the case-insensitive
extension regex. -/
def lowerData (s : String) : List Char := s.data.map Char.toLower

/-- Extension allow-list test, the regex matching names ending in .jpg,
.jpeg, .png, .gif or .webp case-insensitively. -/
def hasImageExt (f : String) : Bool :=
  seqEndsWith (lowerData f) ".jpg".data || seqEndsWith (lowerData f) ".jpeg".data ||
    seqEndsWith (lowerData f) ".png".data || seqEndsWith (lowerData f) ".gif".data ||
    seqEndsWith (lowerData f) ".webp".data

/-- JS String.prototype.includes. -/
def strContains (s pat : String) : Bool := seqContains s.data pat.data

/-- Image enumeration filter of createMangaPDF: allow-listed extension
and no intermediate artifact marker in the name. -/
def isChapterImage (f : String) : Bool :=
  hasImageExt f && !strContains f ".fixed" &&
    !strContains f ".recovered" && !strContains f ".converted"

/-- Oracle world for one assembler run: the root directory listing
(name and isDirectory flag), per-chapter file listings, file contents
for the validator, whether doc.image succeeds on a path and the message
when it throws, and the sharp oracle. -/
structure World where
  rootPath : String
  rootEntries : List (String × Bool)
  chapterFiles : String → List String
  fileData : String → Except String (List Nat)
  imageOk : String → Bool
  imageErr : String → String
  ops : ImageOps

/-- path.join specialised to forward slashes. -/
def joinPath (a b : String) : String := a ++ "/" ++ b

/-- Chapter enumeration of createMangaPDF: subdirectories of the root,
numerically sorted. -/
def chapterList (w : World) : List String :=
  sortByNum ((w.rootEntries.filter (fun e => e.2)).map (fun e => e.1))

/-- Image enumeration of createMangaPDF inside one chapter: allow-listed
non-artifact files, numerically sorted. -/
def chapterImages (w : World) (c : String) : List String :=
  sortByNum ((w.chapterFiles c).filter isChapterImage)

/-- Statistics record of createMangaPDF, mirroring the stats object. -/
structure RunStats where
  totalImages : Nat := 0
  successfulImages : Nat := 0
  skippedImages : Nat := 0
  fixedImages : Nat := 0
  corruptedFiles : List (String × String × Option String) := []
  fixedFiles : List (String × String × Option String) := []
  errorDetails : List (String × String × String) := []
deriving Repr, DecidableEq

/-- Page of the output document: a tall content page carrying one
image, a tall page left without content after failed draws, or a small
error note page. -/
inductive Page where
  | content (path : String)
  | aborted
  | errorNote (file : String)
deriving Repr, DecidableEq

/-- Outcome of processing a single discovered image: updated stats, the
pages appended to the document, and the temporary repaired files still
on disk afterwards. -/
structure StepOut where
  stats : RunStats
  pages : List Page
  tempsLeft : List String
deriving Repr

/-- Per-image body of the createMangaPDF loop: validate, then add a
tall page and draw; on draw failure repair and retry on the same page;
on retry failure or unrepairable input add an error note page. The
catch clause around the repair call is unreachable because the repair
engine returns failure objects instead of throwing. -/
def processImage (w : World) (chapter file : String) (s : RunStats) : StepOut :=
  let imagePath := joinPath (joinPath w.rootPath chapter) file
  let validation := validateImageFile (w.fileData imagePath)
  if !validation.valid then
    { stats := { s with
        skippedImages := s.skippedImages + 1
        corruptedFiles := s.corruptedFiles ++ [(imagePath, chapter, validation.reason)] },
      pages := [], tempsLeft := [] }
  else if w.imageOk imagePath then
    { stats := { s with successfulImages := s.successfulImages + 1 },
      pages := [.content imagePath], tempsLeft := [] }
  else
    let pr := preprocessProblematicImage w.ops imagePath
    match pr.1.success, pr.1.fixedPath with
    | true, some fp =>
      if w.imageOk fp then
        { stats := { s with
            successfulImages := s.successfulImages + 1
            fixedImages := s.fixedImages + 1
            fixedFiles := s.fixedFiles ++ [(imagePath, fp, pr.1.reason)] },
          pages := [.content fp],
          tempsLeft := (pr.2.writes.map (fun q => q.1)).filter (fun q => q ≠ fp) }
      else
        { stats := { s with
            skippedImages := s.skippedImages + 1
            errorDetails := s.errorDetails ++
              [(imagePath, chapter, "Post-fix error: " ++ w.imageErr fp)] },
          pages := [.aborted, .errorNote file],
          tempsLeft := pr.2.writes.map (fun q => q.1) }
    | _, _ =>
      { stats := { s with
          skippedImages := s.skippedImages + 1
          errorDetails := s.errorDetails ++ [(imagePath, chapter, w.imageErr imagePath)] },
        pages := [.aborted, .errorNote file],
        tempsLeft := pr.2.writes.map (fun q => q.1) }

/-- Inner loop over the images of one chapter. -/
def processImages (w : World) (chapter : String) (files : List String)
    (s : RunStats) : RunStats × List Page × List String :=
  match files with
  | [] => (s, [], [])
  | f :: rest =>
    let st := processImage w chapter f s
    let r := processImages w chapter rest st.stats
    (r.1, st.pages ++ r.2.1, st.tempsLeft ++ r.2.2)

/-- One chapter of the outer loop: the total count grows by the number
of discovered images, then each image is processed in order. -/
def processChapter (w : World) (s : RunStats) (c : String) :
    RunStats × List Page × List String :=
  let imgs := chapterImages w c
  processImages w c imgs { s with totalImages := s.totalImages + imgs.length }

/-- Outer loop over all chapters. -/
def runChapters (w : World) (chs : List String) (s : RunStats) :
    RunStats × List Page × List String :=
  match chs with
  | [] => (s, [], [])
  | c :: rest =>
    let r1 := processChapter w s c
    let r2 := runChapters w rest r1.1
    (r2.1, r1.2.1 ++ r2.2.1, r1.2.2 ++ r2.2.2)

/-- A name carrying the .fixed artifact suffix always fails the
enumeration filter. -/
theorem isChapterImage_fixed (x : String) :
    isChapterImage (x ++ ".fixed.jpg") = false := by
  have hc : strContains (x ++ ".fixed.jpg") ".fixed" = true := by
    unfold strContains
    rw [String.data_append]
    exact seqContains_append_right x.data ".fixed.jpg".data ".fixed".data (by decide)
  simp [isChapterImage, hc]

/-- A name carrying the .recovered artifact suffix always fails the
enumeration filter. -/
theorem isChapterImage_recovered (x : String) :
    isChapterImage (x ++ ".recovered.jpg") = false := by
  have hc : strContains (x ++ ".recovered.jpg") ".recovered" = true := by
    unfold strContains
    rw [String.data_append]
    exact seqContains_append_right x.data ".recovered.jpg".data ".recovered".data (by decide)
  simp [isChapterImage, hc]

/-- Membership in the per-chapter enumeration requires passing the
filter. -/
theorem mem_chapterImages (w : World) (c f : String)
    (h : f ∈ chapterImages w c) : isChapterImage f = true := by
  unfold chapterImages sortByNum at h
  rw [List.mem_insertionSort] at h
  exact (List.mem_filter.mp h).2

/-- Result of a completed createMangaPDF run: the output path, final
statistics, emitted pages in order, temporary files remaining on disk,
and the report write that the finish handler always performs. -/
structure RunOutcome where
  outputPath : String
  stats : RunStats
  pages : List Page
  tempsLeft : List String
  reportWritten : Bool
deriving Repr, DecidableEq

/-- Embedding of createMangaPDF: reject with the no-chapters error when
the root has no subdirectories (before any document is opened);
otherwise process every chapter and finalize, always writing the
report. -/
def createMangaPDF (w : World) (outputFileName : String) : Except String RunOutcome :=
  let chapters := chapterList w
  if chapters.isEmpty then .error "No chapters found in the manga folder"
  else
    let r := runChapters w chapters {}
    .ok { outputPath := joinPath w.rootPath outputFileName, stats := r.1,
          pages := r.2.1, tempsLeft := r.2.2, reportWritten := true }

/-- Bytes of a minimal well-formed JPEG file for concrete runs: the
ff d8 ff signature padded with zeros to 100 bytes. -/
def jpegBytes : List Nat := 255 :: 216 :: 255 :: List.replicate 97 0

/-- C7: validateImageFile classifies by size and signature: access
errors carry the underlying message, size 0 reports an empty file,
sizes 1 to 99 report a too-small file, a missing signature reports an
invalid header, and a correct signature with at least 100 bytes is
valid. -/
theorem validate_classification :
    (∀ e, validateImageFile (.error e) =
      { valid := false, reason := some ("File access error: " ++ e) }) ∧
    (∀ bytes : List Nat, bytes.length = 0 →
      validateImageFile (.ok bytes) =
        { valid := false, reason := some "Empty file (0 bytes)" }) ∧
    (∀ bytes : List Nat, 1 ≤ bytes.length → bytes.length ≤ 99 →
      validateImageFile (.ok bytes) =
        { valid := false, reason := some "File too small (likely corrupted)" }) ∧
    (∀ bytes : List Nat, 100 ≤ bytes.length → hasImageSig bytes = false →
      validateImageFile (.ok bytes) =
        { valid := false,
          reason := some "Invalid file header (not a recognized image format)" }) ∧
    (∀ bytes : List Nat, 100 ≤ bytes.length → hasImageSig bytes = true →
      validateImageFile (.ok bytes) = { valid := true, reason := none }) := by
  refine ⟨fun e => rfl, fun bytes h => ?_, fun bytes h1 h2 => ?_,
    fun bytes h1 h2 => ?_, fun bytes h1 h2 => ?_⟩
  · simp [validateImageFile, h]
  · have h0 : ¬ bytes.length = 0 := by omega
    have hlt : bytes.length < 100 := by omega
    simp [validateImageFile, h0, hlt]
  · have h0 : ¬ bytes.length = 0 := by omega
    have hlt : ¬ bytes.length < 100 := by omega
    simp [validateImageFile, h0, hlt, h2]
  · have h0 : ¬ bytes.length = 0 := by omega
    have hlt : ¬ bytes.length < 100 := by omega
    simp [validateImageFile, h0, hlt, h2]

/-- Witness for C7 at concrete files: a 100-byte JPEG-signed file is
valid and an empty file reports the empty-file reason. -/
theorem validate_classification_witness :
    validateImageFile (.ok jpegBytes) = { valid := true, reason := none } ∧
    validateImageFile (.ok []) =
      { valid := false, reason := some "Empty file (0 bytes)" } ∧
    validateImageFile (.ok [255, 216, 255]) =
      { valid := false, reason := some "File too small (likely corrupted)" } ∧
    validateImageFile (.error "EACCES") =
      { valid := false, reason := some ("File access error: " ++ "EACCES") } :=
  ⟨validate_classification.2.2.2.2 jpegBytes (by decide) (by decide),
   validate_classification.2.1 [] (by decide),
   validate_classification.2.2.1 [255, 216, 255] (by decide) (by decide),
   validate_classification.1 "EACCES"⟩

/-- Equation: a metadata decode error sends the run to the catch
clause. -/
theorem preprocess_md_error (ops : ImageOps) (p e : String)
    (hm : ops.metadata p = .error e) :
    preprocessProblematicImage ops p = recoverAfter ops p e := by
  unfold preprocessProblematicImage; rw [hm]

/-- Equation: metadata with no firing predicate passes through. -/
theorem preprocess_pass (ops : ImageOps) (p : String) (md : SharpMetadata)
    (hm : ops.metadata p = .ok md) (hnf : needsFix md = false) :
    preprocessProblematicImage ops p =
      ({ success := true, fixedPath := none },
       { writes := [], tiersEntered := [1] }) := by
  simp [preprocessProblematicImage, hm, hnf]

/-- Equation: metadata with a firing predicate and a successful
re-encode writes the fixed file and reports the firing reason. -/
theorem preprocess_fix (ops : ImageOps) (p : String) (md : SharpMetadata)
    (hm : ops.metadata p = .ok md) (hnf : needsFix md = true)
    (henc : ops.tier1Encode p = .ok ()) :
    preprocessProblematicImage ops p =
      ({ success := true, fixedPath := some (p ++ ".fixed.jpg"),
         reason := some (fixReason md), originalFormat := some md.format,
         originalSize := some (toString md.width ++ "x" ++ toString md.height) },
       { writes := [(p ++ ".fixed.jpg", tier1Output md)], tiersEntered := [1] }) := by
  simp [preprocessProblematicImage, hm, hnf, henc]

/-- Equation: metadata with a firing predicate whose re-encode throws
sends the run to the catch clause. -/
theorem preprocess_encode_error (ops : ImageOps) (p e : String)
    (md : SharpMetadata) (hm : ops.metadata p = .ok md)
    (hnf : needsFix md = true) (henc : ops.tier1Encode p = .error e) :
    preprocessProblematicImage ops p = recoverAfter ops p e := by
  simp [preprocessProblematicImage, hm, hnf, henc]

/-- Equation: the catch clause when the emergency decode succeeds. -/
theorem recoverAfter_s1_ok (ops : ImageOps) (p e : String)
    (hr : ops.recoveryEncode p = .ok ()) :
    recoverAfter ops p e =
      ({ success := true, fixedPath := some (p ++ ".recovered.jpg"),
         reason := some "Emergency recovery (corrupted JPEG)",
         originalFormat := some "jpeg (corrupted)",
         originalSize := some "unknown (corrupted)" },
       { writes := [(p ++ ".recovered.jpg", ops.recoveryOut p)],
         tiersEntered := [1, 2] }) := by
  unfold recoverAfter emergencyImageRecovery
  rw [hr]

/-- Equation: the catch clause when the emergency decode throws but the
placeholder is synthesized. -/
theorem recoverAfter_placeholder (ops : ImageOps) (p e s1 : String) (n : Nat)
    (hr : ops.recoveryEncode p = .error s1) (hs : ops.statSize p = .ok n)
    (hw : ops.placeholderWrite (p ++ ".recovered.jpg") = .ok ()) :
    recoverAfter ops p e =
      ({ success := true, fixedPath := some (p ++ ".recovered.jpg"),
         reason := some "Placeholder for corrupted image",
         originalFormat := some "corrupted",
         originalSize := some (toString n ++ " bytes (corrupted)") },
       { writes := [(p ++ ".recovered.jpg", placeholderOutput)],
         tiersEntered := [1, 2, 3] }) := by
  unfold recoverAfter emergencyImageRecovery
  rw [hr]; dsimp only; rw [hs]; dsimp only; rw [hw]

/-- Equation: the catch clause when the emergency decode throws and the
placeholder statSync also throws. -/
theorem recoverAfter_fail_stat (ops : ImageOps) (p e s1 s2 : String)
    (hr : ops.recoveryEncode p = .error s1) (hs : ops.statSize p = .error s2) :
    recoverAfter ops p e =
      ({ success := false,
         error := some ("Sharp failed: " ++ e ++ ", Recovery failed: " ++
           ("All recovery strategies failed: " ++ s1 ++ " | " ++ s2)) },
       { writes := [], tiersEntered := [1, 2, 3] }) := by
  simp [recoverAfter, emergencyImageRecovery, hr, hs]

/-- Equation: the catch clause when the emergency decode throws and the
placeholder write also throws. -/
theorem recoverAfter_fail_write (ops : ImageOps) (p e s1 s2 : String) (n : Nat)
    (hr : ops.recoveryEncode p = .error s1) (hs : ops.statSize p = .ok n)
    (hw : ops.placeholderWrite (p ++ ".recovered.jpg") = .error s2) :
    recoverAfter ops p e =
      ({ success := false,
         error := some ("Sharp failed: " ++ e ++ ", Recovery failed: " ++
           ("All recovery strategies failed: " ++ s1 ++ " | " ++ s2)) },
       { writes := [], tiersEntered := [1, 2, 3] }) := by
  simp [recoverAfter, emergencyImageRecovery, hr, hs, hw]

/-- Equation: tier1Failure at a metadata decode error. -/
theorem tier1Failure_md_error (ops : ImageOps) (p e : String)
    (hm : ops.metadata p = .error e) : tier1Failure ops p = some e := by
  simp [tier1Failure, hm]

/-- Equation: tier1Failure on pass-through metadata. -/
theorem tier1Failure_pass (ops : ImageOps) (p : String) (md : SharpMetadata)
    (hm : ops.metadata p = .ok md) (hnf : needsFix md = false) :
    tier1Failure ops p = none := by
  simp [tier1Failure, hm, hnf]

/-- Equation: tier1Failure on a completed re-encode. -/
theorem tier1Failure_encode_ok (ops : ImageOps) (p : String) (md : SharpMetadata)
    (hm : ops.metadata p = .ok md) (hnf : needsFix md = true)
    (henc : ops.tier1Encode p = .ok ()) : tier1Failure ops p = none := by
  simp [tier1Failure, hm, hnf, henc]

/-- Equation: tier1Failure on a re-encode that throws. -/
theorem tier1Failure_encode_error (ops : ImageOps) (p e : String)
    (md : SharpMetadata) (hm : ops.metadata p = .ok md)
    (hnf : needsFix md = true) (henc : ops.tier1Encode p = .error e) :
    tier1Failure ops p = some e := by
  simp [tier1Failure, hm, hnf, henc]

/-- Case split: tier1Failure is none exactly in the two completing
shapes of the tier 1 block. -/
theorem tier1Failure_cases (ops : ImageOps) (p : String) :
    (∃ md, ops.metadata p = .ok md ∧ needsFix md = false ∧
      tier1Failure ops p = none) ∨
    (∃ md, ops.metadata p = .ok md ∧ needsFix md = true ∧
      ops.tier1Encode p = .ok () ∧ tier1Failure ops p = none) ∨
    (∃ e, tier1Failure ops p = some e ∧
      ((∃ md, ops.metadata p = .ok md ∧ needsFix md = true ∧
        ops.tier1Encode p = .error e) ∨ ops.metadata p = .error e)) := by
  cases hm : ops.metadata p with
  | error e => exact .inr (.inr ⟨e, tier1Failure_md_error ops p e hm, .inr rfl⟩)
  | ok md =>
    cases hnf : needsFix md with
    | false => exact .inl ⟨md, rfl, hnf, tier1Failure_pass ops p md hm hnf⟩
    | true =>
      cases henc : ops.tier1Encode p with
      | ok u =>
        cases u
        exact .inr (.inl ⟨md, rfl, hnf, rfl, tier1Failure_encode_ok ops p md hm hnf henc⟩)
      | error e =>
        exact .inr (.inr ⟨e, tier1Failure_encode_error ops p e md hm hnf henc,
          .inl ⟨md, rfl, hnf, rfl⟩⟩)

/-- C1: the repair engine escalates strictly: tier 2 runs exactly when
tier 1 throws, tier 3 exactly when tiers 1 and 2 throw; when tiers 1
and 2 throw but placeholder synthesis succeeds the result is a success
carrying the 720 by 1000 placeholder; the only hard failure needs all
three tiers to throw and then bundles the tier 2 and tier 3 messages. -/
theorem repair_tier_escalation (ops : ImageOps) (p : String) :
    ((2 : Nat) ∈ (preprocessProblematicImage ops p).2.tiersEntered ↔
      tier1Failure ops p ≠ none) ∧
    ((3 : Nat) ∈ (preprocessProblematicImage ops p).2.tiersEntered ↔
      (tier1Failure ops p ≠ none ∧ ∃ s1, ops.recoveryEncode p = .error s1)) ∧
    ((preprocessProblematicImage ops p).1.success = false ↔
      (tier1Failure ops p ≠ none ∧ (∃ s1, ops.recoveryEncode p = .error s1) ∧
        strategy2Failure ops p ≠ none)) ∧
    (∀ e1 s1, tier1Failure ops p = some e1 → ops.recoveryEncode p = .error s1 →
      strategy2Failure ops p = none →
      (preprocessProblematicImage ops p).1.success = true ∧
      (preprocessProblematicImage ops p).1.reason =
        some "Placeholder for corrupted image" ∧
      (preprocessProblematicImage ops p).2.writes =
        [(p ++ ".recovered.jpg", placeholderOutput)] ∧
      placeholderOutput.width = 720 ∧ placeholderOutput.height = 1000) ∧
    (∀ e1 s1 s2, tier1Failure ops p = some e1 →
      ops.recoveryEncode p = .error s1 → strategy2Failure ops p = some s2 →
      (preprocessProblematicImage ops p).1 =
        { success := false, error := some ("Sharp failed: " ++ e1 ++
          ", Recovery failed: " ++
          ("All recovery strategies failed: " ++ s1 ++ " | " ++ s2)) }) := by
  rcases tier1Failure_cases ops p with
    ⟨md, hm, hnf, h1⟩ | ⟨md, hm, hnf, henc, h1⟩ | ⟨e1, h1, hsrc⟩
  · rw [preprocess_pass ops p md hm hnf]
    refine ⟨by simp [h1], by simp [h1], by simp [h1], ?_, ?_⟩
    · intro a b ha _ _; exact Option.noConfusion (h1.symm.trans ha)
    · intro a b c ha _ _; exact Option.noConfusion (h1.symm.trans ha)
  · rw [preprocess_fix ops p md hm hnf henc]
    refine ⟨by simp [h1], by simp [h1], by simp [h1], ?_, ?_⟩
    · intro a b ha _ _; exact Option.noConfusion (h1.symm.trans ha)
    · intro a b c ha _ _; exact Option.noConfusion (h1.symm.trans ha)
  · have hpre : preprocessProblematicImage ops p = recoverAfter ops p e1 := by
      rcases hsrc with ⟨md, hm, hnf, henc⟩ | hm
      · exact preprocess_encode_error ops p e1 md hm hnf henc
      · exact preprocess_md_error ops p e1 hm
    rw [hpre]
    cases hr : ops.recoveryEncode p with
    | ok u =>
      cases u
      rw [recoverAfter_s1_ok ops p e1 hr]
      refine ⟨by simp [h1], by simp [h1, hr], by simp [h1, hr], ?_, ?_⟩
      · intro a b _ hb _; exact Except.noConfusion hb
      · intro a b c _ hb _; exact Except.noConfusion hb
    | error s1 =>
      cases hs : ops.statSize p with
      | error s2 =>
        have hs2 : strategy2Failure ops p = some s2 := by
          simp [strategy2Failure, hs]
        rw [recoverAfter_fail_stat ops p e1 s1 s2 hr hs]
        refine ⟨by simp [h1], by simp [h1, hr], by simp [h1, hr, hs2], ?_, ?_⟩
        · intro a b _ _ hnone; exact Option.noConfusion (hs2.symm.trans hnone)
        · intro a b c ha hb hc
          obtain rfl : e1 = a := Option.some.inj (h1.symm.trans ha)
          obtain rfl : s1 = b := Except.error.inj hb
          obtain rfl : s2 = c := Option.some.inj (hs2.symm.trans hc)
          rfl
      | ok n =>
        cases hw : ops.placeholderWrite (p ++ ".recovered.jpg") with
        | ok u =>
          cases u
          have hs2 : strategy2Failure ops p = none := by
            simp [strategy2Failure, hs, hw]
          rw [recoverAfter_placeholder ops p e1 s1 n hr hs hw]
          refine ⟨by simp [h1], by simp [h1, hr], by simp [h1, hr, hs2], ?_, ?_⟩
          · intro a b _ _ _; exact ⟨rfl, rfl, rfl, rfl, rfl⟩
          · intro a b c _ _ hc; exact Option.noConfusion (hs2.symm.trans hc)
        | error s2 =>
          have hs2 : strategy2Failure ops p = some s2 := by
            simp [strategy2Failure, hs, hw]
          rw [recoverAfter_fail_write ops p e1 s1 s2 n hr hs hw]
          refine ⟨by simp [h1], by simp [h1, hr], by simp [h1, hr, hs2], ?_, ?_⟩
          · intro a b _ _ hnone; exact Option.noConfusion (hs2.symm.trans hnone)
          · intro a b c ha hb hc
            obtain rfl : e1 = a := Option.some.inj (h1.symm.trans ha)
            obtain rfl : s1 = b := Except.error.inj hb
            obtain rfl : s2 = c := Option.some.inj (hs2.symm.trans hc)
            rfl

/-- Resolution of the fixReason priority chain against the four
trigger predicates. -/
theorem fixReason_spec (md : SharpMetadata) :
    ((fixReason md = "Progressive JPEG") ↔ md.isProgressive = true) ∧
    ((fixReason md = "WebP format") ↔
      (md.isProgressive = false ∧ md.format = "webp")) ∧
    ((fixReason md = "Very tall image") ↔
      (md.isProgressive = false ∧ md.format ≠ "webp" ∧ 10000 < md.height)) ∧
    (needsFix md = true →
      ((fixReason md = "Very large image") ↔
        (md.isProgressive = false ∧ md.format ≠ "webp" ∧ ¬ 10000 < md.height ∧
         50000000 < md.width * md.height))) := by
  cases hp : md.isProgressive with
  | true => simp [fixReason, hp]
  | false =>
    by_cases hw : md.format = "webp"
    · simp [fixReason, hp, hw]
    · by_cases ht : 10000 < md.height
      · simp [fixReason, hp, hw, ht]
      · simp only [fixReason, hp, if_false, Bool.false_eq_true]
        rw [if_neg (by simp [hw]), if_neg (by simp [ht])]
        refine ⟨by simp, by simp [hw], by simp [ht], ?_⟩
        intro hn
        have hlarge : 50000000 < md.width * md.height := by
          simp [needsFix, hp, hw, ht] at hn
          exact hn
        simp [hw, ht, hlarge]

/-- C2: tier 1 re-encodes exactly when one of the four predicates
holds (progressive, webp container, height over 10000, pixel count
over 50000000), reports the firing predicate as the reason, and passes
through with no fixed path when none holds. -/
theorem tier1_trigger_iff (ops : ImageOps) (p : String) (md : SharpMetadata)
    (hm : ops.metadata p = .ok md) :
    (needsFix md = true ↔ (md.isProgressive = true ∨ md.format = "webp" ∨
      10000 < md.height ∨ 50000000 < md.width * md.height)) ∧
    (needsFix md = false →
      preprocessProblematicImage ops p =
        ({ success := true, fixedPath := none },
         { writes := [], tiersEntered := [1] })) ∧
    (needsFix md = true → ops.tier1Encode p = .ok () →
      (preprocessProblematicImage ops p).1 =
        { success := true, fixedPath := some (p ++ ".fixed.jpg"),
          reason := some (fixReason md), originalFormat := some md.format,
          originalSize := some (toString md.width ++ "x" ++ toString md.height) }) ∧
    ((fixReason md = "Progressive JPEG" ↔ md.isProgressive = true) ∧
     (fixReason md = "WebP format" ↔
       (md.isProgressive = false ∧ md.format = "webp")) ∧
     (fixReason md = "Very tall image" ↔
       (md.isProgressive = false ∧ md.format ≠ "webp" ∧ 10000 < md.height)) ∧
     (needsFix md = true →
       (fixReason md = "Very large image" ↔
         (md.isProgressive = false ∧ md.format ≠ "webp" ∧ ¬ 10000 < md.height ∧
          50000000 < md.width * md.height)))) := by
  refine ⟨?_, ?_, ?_, fixReason_spec md⟩
  · simp [needsFix, Bool.or_eq_true, decide_eq_true_iff, beq_iff_eq, or_assoc]
  · intro h; exact preprocess_pass ops p md hm h
  · intro h1 h2; rw [preprocess_fix ops p md hm h1 h2]

/-- Progressive metadata of moderate size, for concrete runs. -/
def mdProg : SharpMetadata :=
  { isProgressive := true, format := "jpeg", width := 800, height := 1200 }

/-- Sharp oracle that decodes mdProg and re-encodes without error. -/
def opsProg : ImageOps where
  metadata := fun _ => .ok mdProg
  tier1Encode := fun _ => .ok ()
  recoveryEncode := fun _ => .error "r1"
  recoveryOut := fun _ => placeholderOutput
  statSize := fun _ => .ok 5
  placeholderWrite := fun _ => .ok ()

/-- Witness for C2: a concrete progressive image is re-encoded with the
progressive reason, and a concrete unremarkable image passes through. -/
theorem tier1_trigger_iff_witness :
    needsFix mdProg = true ∧
    (preprocessProblematicImage opsProg "a").1 =
      { success := true, fixedPath := some ("a" ++ ".fixed.jpg"),
        reason := some (fixReason mdProg), originalFormat := some mdProg.format,
        originalSize := some (toString mdProg.width ++ "x" ++ toString mdProg.height) } ∧
    fixReason mdProg = "Progressive JPEG" := by
  have h := tier1_trigger_iff opsProg "a" mdProg rfl
  exact ⟨by decide, h.2.2.1 (by decide) rfl, (h.2.2.2.1).mpr rfl⟩

/-- Scale factor of the tier 1 resize when the height cap is inactive:
the image is left at its original dimensions. -/
theorem fitInside_small (w h : Nat) (hh : h ≤ 8000) :
    fitInside w h w (min h 8000) = (w, h) := by
  rw [Nat.min_eq_left hh]
  simp [fitInside]

/-- Scale factor of the tier 1 resize when the height cap binds: the
height becomes 8000 and the width shrinks proportionally. -/
theorem fitInside_tall (w h : Nat) (hh : 8000 < h) :
    fitInside w h w (min h 8000) = (w * 8000 / h, 8000) := by
  rw [Nat.min_eq_right hh.le]
  have hcap : ¬ h ≤ 8000 := by omega
  have hc : 8000 * w ≤ w * h := by
    rw [Nat.mul_comm]
    exact Nat.mul_le_mul (Nat.le_refl w) hh.le
  simp [fitInside, hcap, hc]

/-- Dimensions of the tier 1 output: never progressive, height exactly
min(original, 8000), width never above the original and equal to it
exactly when the height cap is inactive. -/
theorem tier1Output_spec (md : SharpMetadata) :
    (tier1Output md).progressive = false ∧
    (tier1Output md).height = min md.height 8000 ∧
    (tier1Output md).width ≤ md.width ∧
    (md.height ≤ 8000 → (tier1Output md).width = md.width) := by
  by_cases hh : md.height ≤ 8000
  · simp only [tier1Output]
    rw [fitInside_small md.width md.height hh]
    simp [Nat.min_eq_left hh]
  · have hh2 : 8000 < md.height := by omega
    have hwle : md.width * 8000 / md.height ≤ md.width := by
      apply Nat.div_le_of_le_mul'
      calc md.width * 8000 ≤ md.width * md.height :=
            Nat.mul_le_mul_left md.width hh2.le
        _ = md.height * md.width := Nat.mul_comm _ _
    simp only [tier1Output]
    rw [fitInside_tall md.width md.height hh2]
    simp [Nat.min_eq_right hh2.le, hh, hwle]

/-- C3 (amended): a progressive input processed by tier 1 without
throwing is written as a non-progressive image whose height is
min(original, 8000) and whose width never exceeds the original,
matching it exactly when the original height is at most 8000. -/
theorem tier1_progressive_output (ops : ImageOps) (p : String)
    (md : SharpMetadata) (hm : ops.metadata p = .ok md)
    (hp : md.isProgressive = true) (henc : ops.tier1Encode p = .ok ()) :
    (preprocessProblematicImage ops p).2.writes =
      [(p ++ ".fixed.jpg", tier1Output md)] ∧
    (tier1Output md).progressive = false ∧
    (tier1Output md).height = min md.height 8000 ∧
    (tier1Output md).width ≤ md.width ∧
    (md.height ≤ 8000 → (tier1Output md).width = md.width) := by
  have hnf : needsFix md = true := by simp [needsFix, hp]
  rw [preprocess_fix ops p md hm hnf henc]
  exact ⟨rfl, tier1Output_spec md⟩

/-- Progressive metadata taller than the 8000 cap. -/
def mdTall : SharpMetadata :=
  { isProgressive := true, format := "jpeg", width := 1000, height := 16000 }

/-- Sharp oracle that decodes mdTall and re-encodes without error. -/
def opsTall : ImageOps where
  metadata := fun _ => .ok mdTall
  tier1Encode := fun _ => .ok ()
  recoveryEncode := fun _ => .error "r1"
  recoveryOut := fun _ => placeholderOutput
  statSize := fun _ => .ok 5
  placeholderWrite := fun _ => .ok ()

/-- Counterexample to C3 as stated: a progressive 1000 by 16000 input
is re-encoded at width 500, not at its original width 1000, because
the fit-inside resize scales both dimensions when the height cap
binds. -/
theorem tier1_progressive_width_counterexample :
    mdTall.isProgressive = true ∧ mdTall.width = 1000 ∧
    (preprocessProblematicImage opsTall "img").2.writes =
      [("img" ++ ".fixed.jpg",
        { width := 500, height := 8000, progressive := false, quality := 92 })] ∧
    (500 : Nat) ≠ 1000 := by
  refine ⟨rfl, rfl, ?_, by decide⟩
  rw [preprocess_fix opsTall "img" mdTall rfl (by decide) rfl]
  rfl

/-- Witness for the amended C3 at a concrete progressive image whose
height is under the cap: the width is preserved. -/
theorem tier1_progressive_output_witness :
    (preprocessProblematicImage opsProg "a").2.writes =
      [("a" ++ ".fixed.jpg", tier1Output mdProg)] ∧
    (tier1Output mdProg).progressive = false ∧
    (tier1Output mdProg).width = mdProg.width := by
  have h := tier1_progressive_output opsProg "a" mdProg rfl rfl rfl
  exact ⟨h.1, h.2.1, h.2.2.2.2 (by decide)⟩

/-- Sharp oracle that throws at the metadata decode and at the
emergency decode, with working placeholder synthesis. -/
def opsTier3 : ImageOps where
  metadata := fun _ => .error "m1"
  tier1Encode := fun _ => .ok ()
  recoveryEncode := fun _ => .error "r1"
  recoveryOut := fun _ => placeholderOutput
  statSize := fun _ => .ok 5
  placeholderWrite := fun _ => .ok ()

/-- Witness for C1: under opsTier3 all three tiers are entered and the
result is the 720 by 1000 placeholder success. -/
theorem repair_tier_escalation_witness :
    (2 : Nat) ∈ (preprocessProblematicImage opsTier3 "img").2.tiersEntered ∧
    (3 : Nat) ∈ (preprocessProblematicImage opsTier3 "img").2.tiersEntered ∧
    (preprocessProblematicImage opsTier3 "img").1.success = true ∧
    (preprocessProblematicImage opsTier3 "img").2.writes =
      [("img" ++ ".recovered.jpg", placeholderOutput)] ∧
    placeholderOutput.width = 720 ∧ placeholderOutput.height = 1000 := by
  have h := repair_tier_escalation opsTier3 "img"
  refine ⟨h.1.mpr (by decide), h.2.1.mpr ⟨by decide, "r1", rfl⟩, ?_⟩
  have h4 := h.2.2.2.1 "m1" "r1" rfl rfl rfl
  exact ⟨h4.1, h4.2.2⟩

/-- C10: every file the repair engine writes is the input path with the
.fixed.jpg or .recovered.jpg suffix, and the enumeration filter rejects
both artifact shapes, so a repair artifact is never selected as an
input image of a later enumeration. -/
theorem repair_artifacts_excluded :
    (∀ (ops : ImageOps) (p q : String) (spec : OutSpec),
      (q, spec) ∈ (preprocessProblematicImage ops p).2.writes →
      q = p ++ ".fixed.jpg" ∨ q = p ++ ".recovered.jpg") ∧
    (∀ x : String, isChapterImage (x ++ ".fixed.jpg") = false ∧
      isChapterImage (x ++ ".recovered.jpg") = false) ∧
    (∀ (w : World) (c x : String),
      (x ++ ".fixed.jpg") ∉ chapterImages w c ∧
      (x ++ ".recovered.jpg") ∉ chapterImages w c) := by
  refine ⟨?_, fun x => ⟨isChapterImage_fixed x, isChapterImage_recovered x⟩, ?_⟩
  · intro ops p q spec hmem
    rcases tier1Failure_cases ops p with
      ⟨md, hm, hnf, h1⟩ | ⟨md, hm, hnf, henc, h1⟩ | ⟨e1, h1, hsrc⟩
    · rw [preprocess_pass ops p md hm hnf] at hmem
      exact absurd hmem (List.not_mem_nil _)
    · rw [preprocess_fix ops p md hm hnf henc] at hmem
      exact .inl (congrArg Prod.fst (List.mem_singleton.mp hmem))
    · have hpre : preprocessProblematicImage ops p = recoverAfter ops p e1 := by
        rcases hsrc with ⟨md, hm, hnf, henc⟩ | hm
        · exact preprocess_encode_error ops p e1 md hm hnf henc
        · exact preprocess_md_error ops p e1 hm
      rw [hpre] at hmem
      cases hr : ops.recoveryEncode p with
      | ok u =>
        cases u
        rw [recoverAfter_s1_ok ops p e1 hr] at hmem
        exact .inr (congrArg Prod.fst (List.mem_singleton.mp hmem))
      | error s1 =>
        cases hs : ops.statSize p with
        | error s2 =>
          rw [recoverAfter_fail_stat ops p e1 s1 s2 hr hs] at hmem
          exact absurd hmem (List.not_mem_nil _)
        | ok n =>
          cases hw : ops.placeholderWrite (p ++ ".recovered.jpg") with
          | ok u =>
            cases u
            rw [recoverAfter_placeholder ops p e1 s1 n hr hs hw] at hmem
            exact .inr (congrArg Prod.fst (List.mem_singleton.mp hmem))
          | error s2 =>
            rw [recoverAfter_fail_write ops p e1 s1 s2 n hr hs hw] at hmem
            exact absurd hmem (List.not_mem_nil _)
  · intro w c x
    constructor
    · intro hmem
      have hfilter := mem_chapterImages w c _ hmem
      rw [isChapterImage_fixed x] at hfilter
      exact Bool.noConfusion hfilter
    · intro hmem
      have hfilter := mem_chapterImages w c _ hmem
      rw [isChapterImage_recovered x] at hfilter
      exact Bool.noConfusion hfilter

/-- Witness for C10: the concrete fixed artifact written for a
progressive image carries the .fixed.jpg suffix and is rejected by the
enumeration filter. -/
theorem repair_artifacts_excluded_witness :
    ("a" ++ ".fixed.jpg" = "a" ++ ".fixed.jpg" ∨
      "a" ++ ".fixed.jpg" = "a" ++ ".recovered.jpg") ∧
    isChapterImage ("a" ++ ".fixed.jpg") = false := by
  have hw2 : (preprocessProblematicImage opsProg "a").2.writes =
      [("a" ++ ".fixed.jpg", tier1Output mdProg)] := by
    rw [preprocess_fix opsProg "a" mdProg rfl (by decide) rfl]
  exact ⟨repair_artifacts_excluded.1 opsProg "a" ("a" ++ ".fixed.jpg")
      (tier1Output mdProg) (by rw [hw2]; exact List.mem_singleton.mpr rfl),
    (repair_artifacts_excluded.2.1 "a").1⟩


theorem processImage_stats (w : World) (c f : String) (s : RunStats) :
    (processImage w c f s).stats.totalImages = s.totalImages ∧
    (processImage w c f s).stats.successfulImages +
      (processImage w c f s).stats.skippedImages =
      s.successfulImages + s.skippedImages + 1 ∧
    (s.fixedImages ≤ s.successfulImages →
      (processImage w c f s).stats.fixedImages ≤
        (processImage w c f s).stats.successfulImages) := by
  unfold processImage
  dsimp only
  split
  · exact ⟨rfl, by dsimp only; omega, fun h => by dsimp only; omega⟩
  · split
    · exact ⟨rfl, by dsimp only; omega, fun h => by dsimp only; omega⟩
    · split
      · split
        · exact ⟨rfl, by dsimp only; omega, fun h => by dsimp only; omega⟩
        · exact ⟨rfl, by dsimp only; omega, fun h => by dsimp only; omega⟩
      · exact ⟨rfl, by dsimp only; omega, fun h => by dsimp only; omega⟩

theorem processImage_pages_const (w : World) (c f : String) (s : RunStats) :
    (processImage w c f s).pages = (processImage w c f {}).pages := by
  unfold processImage
  dsimp only
  split
  · rfl
  · split
    · rfl
    · split
      · split
        · rfl
        · rfl
      · rfl

theorem processImage_temps_const (w : World) (c f : String) (s : RunStats) :
    (processImage w c f s).tempsLeft = (processImage w c f {}).tempsLeft := by
  unfold processImage
  dsimp only
  split
  · rfl
  · split
    · rfl
    · split
      · split
        · rfl
        · rfl
      · rfl

theorem processImages_stats (w : World) (c : String) (files : List String)
    (s : RunStats) :
    (processImages w c files s).1.totalImages = s.totalImages ∧
    (processImages w c files s).1.successfulImages +
      (processImages w c files s).1.skippedImages =
      s.successfulImages + s.skippedImages + files.length ∧
    (s.fixedImages ≤ s.successfulImages →
      (processImages w c files s).1.fixedImages ≤
        (processImages w c files s).1.successfulImages) := by
  induction files generalizing s with
  | nil => simp [processImages]
  | cons f rest ih =>
    have hstep := processImage_stats w c f s
    have hrest := ih (processImage w c f s).stats
    unfold processImages
    dsimp only
    refine ⟨by omega, by simp [List.length_cons]; omega, fun h => hrest.2.2 (hstep.2.2 h)⟩

theorem processImages_pages (w : World) (c : String) (files : List String)
    (s : RunStats) :
    (processImages w c files s).2.1 =
      files.flatMap (fun f => (processImage w c f {}).pages) := by
  induction files generalizing s with
  | nil => simp [processImages]
  | cons f rest ih =>
    unfold processImages
    dsimp only
    rw [List.flatMap_cons, ih (processImage w c f s).stats,
      processImage_pages_const w c f s]

theorem runChapters_stats (w : World) (chs : List String) (s : RunStats)
    (hI : s.successfulImages + s.skippedImages = s.totalImages ∧
      s.fixedImages ≤ s.successfulImages) :
    (runChapters w chs s).1.successfulImages +
      (runChapters w chs s).1.skippedImages =
      (runChapters w chs s).1.totalImages ∧
    (runChapters w chs s).1.fixedImages ≤
      (runChapters w chs s).1.successfulImages := by
  induction chs generalizing s with
  | nil => exact hI
  | cons c rest ih =>
    unfold runChapters
    dsimp only
    apply ih
    unfold processChapter
    dsimp only
    have h := processImages_stats w c (chapterImages w c)
      { s with totalImages := s.totalImages + (chapterImages w c).length }
    dsimp only at h
    obtain ⟨h1, h2, h3⟩ := h
    exact ⟨by omega, h3 hI.2⟩

theorem runChapters_pages (w : World) (chs : List String) (s : RunStats) :
    (runChapters w chs s).2.1 =
      chs.flatMap (fun c =>
        (chapterImages w c).flatMap (fun f => (processImage w c f {}).pages)) := by
  induction chs generalizing s with
  | nil => simp [runChapters]
  | cons c rest ih =>
    unfold runChapters
    dsimp only
    rw [List.flatMap_cons, ih (processChapter w s c).1]
    unfold processChapter
    rw [processImages_pages]

/-- Full path of a discovered image inside its chapter folder. -/
def imagePathOf (w : World) (c f : String) : String :=
  joinPath (joinPath w.rootPath c) f

theorem preprocess_writes_of_fixedPath (ops : ImageOps) (p fp : String)
    (hs : (preprocessProblematicImage ops p).1.success = true)
    (hfp : (preprocessProblematicImage ops p).1.fixedPath = some fp) :
    ∃ spec, (preprocessProblematicImage ops p).2.writes = [(fp, spec)] := by
  rcases tier1Failure_cases ops p with
    ⟨md, hm, hnf, h1⟩ | ⟨md, hm, hnf, henc, h1⟩ | ⟨e1, h1, hsrc⟩
  · rw [preprocess_pass ops p md hm hnf] at hfp
    exact Option.noConfusion hfp
  · rw [preprocess_fix ops p md hm hnf henc] at hfp
    obtain rfl : p ++ ".fixed.jpg" = fp := Option.some.inj hfp
    rw [preprocess_fix ops p md hm hnf henc]
    exact ⟨tier1Output md, rfl⟩
  · have hpre : preprocessProblematicImage ops p = recoverAfter ops p e1 := by
      rcases hsrc with ⟨md, hm, hnf, henc⟩ | hm
      · exact preprocess_encode_error ops p e1 md hm hnf henc
      · exact preprocess_md_error ops p e1 hm
    rw [hpre] at hfp hs ⊢
    cases hr : ops.recoveryEncode p with
    | ok u =>
      cases u
      rw [recoverAfter_s1_ok ops p e1 hr] at hfp ⊢
      obtain rfl : p ++ ".recovered.jpg" = fp := Option.some.inj hfp
      exact ⟨ops.recoveryOut p, rfl⟩
    | error s1 =>
      cases hs2 : ops.statSize p with
      | error s2 =>
        rw [recoverAfter_fail_stat ops p e1 s1 s2 hr hs2] at hs
        exact Bool.noConfusion hs
      | ok n =>
        cases hw : ops.placeholderWrite (p ++ ".recovered.jpg") with
        | ok u =>
          cases u
          rw [recoverAfter_placeholder ops p e1 s1 n hr hs2 hw] at hfp ⊢
          obtain rfl : p ++ ".recovered.jpg" = fp := Option.some.inj hfp
          exact ⟨placeholderOutput, rfl⟩
        | error s2 =>
          rw [recoverAfter_fail_write ops p e1 s1 s2 n hr hs2 hw] at hs
          exact Bool.noConfusion hs

theorem preprocess_writes_of_no_fix (ops : ImageOps) (p : String)
    (h : (preprocessProblematicImage ops p).1.success = false ∨
      (preprocessProblematicImage ops p).1.fixedPath = none) :
    (preprocessProblematicImage ops p).2.writes = [] := by
  rcases tier1Failure_cases ops p with
    ⟨md, hm, hnf, h1⟩ | ⟨md, hm, hnf, henc, h1⟩ | ⟨e1, h1, hsrc⟩
  · rw [preprocess_pass ops p md hm hnf]
  · rw [preprocess_fix ops p md hm hnf henc] at h ⊢
    rcases h with h | h
    · exact Bool.noConfusion h
    · exact Option.noConfusion h
  · have hpre : preprocessProblematicImage ops p = recoverAfter ops p e1 := by
      rcases hsrc with ⟨md, hm, hnf, henc⟩ | hm
      · exact preprocess_encode_error ops p e1 md hm hnf henc
      · exact preprocess_md_error ops p e1 hm
    rw [hpre] at h ⊢
    cases hr : ops.recoveryEncode p with
    | ok u =>
      cases u
      rw [recoverAfter_s1_ok ops p e1 hr] at h ⊢
      rcases h with h | h
      · exact Bool.noConfusion h
      · exact Option.noConfusion h
    | error s1 =>
      cases hs2 : ops.statSize p with
      | error s2 =>
        rw [recoverAfter_fail_stat ops p e1 s1 s2 hr hs2]
      | ok n =>
        cases hw : ops.placeholderWrite (p ++ ".recovered.jpg") with
        | ok u =>
          cases u
          rw [recoverAfter_placeholder ops p e1 s1 n hr hs2 hw] at h ⊢
          rcases h with h | h
          · exact Bool.noConfusion h
          · exact Option.noConfusion h
        | error s2 =>
          rw [recoverAfter_fail_write ops p e1 s1 s2 n hr hs2 hw]

/-- World with one chapter of one valid progressive image on which
every draw attempt fails: the repair writes a fixed file, the retry
fails, the error note page is added and the temp file stays. -/
def wRetryFail : World where
  rootPath := "root"
  rootEntries := [("ch1", true)]
  chapterFiles := fun _ => ["001.jpg"]
  fileData := fun _ => .ok jpegBytes
  imageOk := fun _ => false
  imageErr := fun _ => "boom"
  ops := opsProg

/-- Same world with every draw succeeding. -/
def wGood : World := { wRetryFail with imageOk := fun _ => true }

/-- Same world with one chapter and no files. -/
def wNoImages : World := { wRetryFail with chapterFiles := fun _ => [] }

/-- Same world with no chapter subdirectories. -/
def wEmpty : World := { wRetryFail with rootEntries := [] }

/-- Outcome of the run on wRetryFail. -/
def outRetryFail : RunOutcome where
  outputPath := "root/out.pdf"
  stats := { totalImages := 1, successfulImages := 0, skippedImages := 1,
             fixedImages := 0, corruptedFiles := [], fixedFiles := [],
             errorDetails := [("root/ch1/001.jpg", "ch1", "Post-fix error: boom")] }
  pages := [.aborted, .errorNote "001.jpg"]
  tempsLeft := ["root/ch1/001.jpg.fixed.jpg"]
  reportWritten := true

/-- Outcome of the run on wNoImages. -/
def outNoImages : RunOutcome where
  outputPath := "root/out.pdf"
  stats := {}
  pages := []
  tempsLeft := []
  reportWritten := true

theorem outRetryFail_run : createMangaPDF wRetryFail "out.pdf" = .ok outRetryFail := by
  rfl

theorem outNoImages_run : createMangaPDF wNoImages "out.pdf" = .ok outNoImages := by
  rfl

/-- C4 (amended): the run aborts with the no-chapters error exactly
when the root has no chapter subfolders; any root with at least one
chapter folder finalizes and writes the report, regardless of how many
images exist. -/
theorem assemble_fatal_iff_no_chapters (w : World) (name : String) :
    (createMangaPDF w name = .error "No chapters found in the manga folder" ↔
      chapterList w = []) ∧
    (chapterList w ≠ [] → ∃ out, createMangaPDF w name = .ok out ∧
      out.reportWritten = true ∧
      out.stats = (runChapters w (chapterList w) {}).1) := by
  constructor
  · by_cases hch : chapterList w = []
    · simp [createMangaPDF, hch]
    · simp [createMangaPDF, List.isEmpty_iff, hch]
  · intro hch
    have hE : (chapterList w).isEmpty = false := by
      simp [List.isEmpty_iff, hch]
    unfold createMangaPDF
    dsimp only
    rw [hE]
    exact ⟨_, rfl, rfl, rfl⟩

/-- Counterexample to C4 as stated: a root with one chapter folder and
zero images does not raise; the run completes with a document and a
report and a zero total. -/
theorem assemble_zero_images_counterexample :
    chapterList wNoImages ≠ [] ∧
    createMangaPDF wNoImages "out.pdf" = .ok outNoImages ∧
    outNoImages.stats.totalImages = 0 ∧
    outNoImages.reportWritten = true := ⟨by decide, outNoImages_run, rfl, rfl⟩

/-- Witness for the amended C4: the empty root aborts, the one-chapter
root finalizes. -/
theorem assemble_fatal_iff_no_chapters_witness :
    createMangaPDF wEmpty "out.pdf" = .error "No chapters found in the manga folder" ∧
    (∃ out, createMangaPDF wNoImages "out.pdf" = .ok out ∧
      out.reportWritten = true ∧
      out.stats = (runChapters wNoImages (chapterList wNoImages) {}).1) :=
  ⟨(assemble_fatal_iff_no_chapters wEmpty "out.pdf").1.mpr rfl,
   (assemble_fatal_iff_no_chapters wNoImages "out.pdf").2 (by decide)⟩

/-- C5: on every completed run, succeeded plus skipped equals total and
the repaired count never exceeds the succeeded count. -/
theorem assemble_stats_invariant (w : World) (name : String) (out : RunOutcome)
    (h : createMangaPDF w name = .ok out) :
    out.stats.successfulImages + out.stats.skippedImages =
      out.stats.totalImages ∧
    out.stats.fixedImages ≤ out.stats.successfulImages := by
  unfold createMangaPDF at h
  dsimp only at h
  split at h
  · exact Except.noConfusion h
  · injection h with h2
    subst h2
    exact runChapters_stats w (chapterList w) {} ⟨rfl, Nat.le_refl 0⟩

/-- Witness for C5 on a concrete completed run. -/
theorem assemble_stats_invariant_witness :
    outRetryFail.stats.successfulImages + outRetryFail.stats.skippedImages =
      outRetryFail.stats.totalImages ∧
    outRetryFail.stats.fixedImages ≤ outRetryFail.stats.successfulImages :=
  assemble_stats_invariant wRetryFail "out.pdf" outRetryFail outRetryFail_run

/-- C6 (amended): a discovered image yields exactly one content page
when it validates and renders directly or on the retry, zero pages when
validation rejects it, and two pages (the aborted content page plus one
error note) when rendering fails even after repair. -/
theorem pages_per_image_cases (w : World) (c f : String) (s : RunStats) :
    ((validateImageFile (w.fileData (imagePathOf w c f))).valid = false →
      (processImage w c f s).pages = []) ∧
    ((validateImageFile (w.fileData (imagePathOf w c f))).valid = true →
      w.imageOk (imagePathOf w c f) = true →
      (processImage w c f s).pages = [.content (imagePathOf w c f)]) ∧
    (∀ fp, (validateImageFile (w.fileData (imagePathOf w c f))).valid = true →
      w.imageOk (imagePathOf w c f) = false →
      (preprocessProblematicImage w.ops (imagePathOf w c f)).1.success = true →
      (preprocessProblematicImage w.ops (imagePathOf w c f)).1.fixedPath = some fp →
      w.imageOk fp = true →
      (processImage w c f s).pages = [.content fp]) ∧
    (∀ fp, (validateImageFile (w.fileData (imagePathOf w c f))).valid = true →
      w.imageOk (imagePathOf w c f) = false →
      (preprocessProblematicImage w.ops (imagePathOf w c f)).1.success = true →
      (preprocessProblematicImage w.ops (imagePathOf w c f)).1.fixedPath = some fp →
      w.imageOk fp = false →
      (processImage w c f s).pages = [.aborted, .errorNote f]) ∧
    ((validateImageFile (w.fileData (imagePathOf w c f))).valid = true →
      w.imageOk (imagePathOf w c f) = false →
      ((preprocessProblematicImage w.ops (imagePathOf w c f)).1.success = false ∨
        (preprocessProblematicImage w.ops (imagePathOf w c f)).1.fixedPath = none) →
      (processImage w c f s).pages = [.aborted, .errorNote f]) := by
  refine ⟨?_, ?_, ?_, ?_, ?_⟩
  · intro hv
    simp only [imagePathOf] at hv
    unfold processImage
    simp [hv]
  · intro hv hok
    simp only [imagePathOf] at hv hok
    unfold processImage
    simp [imagePathOf, hv, hok]
  · intro fp hv hok hsucc hfp hfpok
    simp only [imagePathOf] at hv hok hsucc hfp
    unfold processImage
    simp [hv, hok, hsucc, hfp, hfpok]
  · intro fp hv hok hsucc hfp hfpok
    simp only [imagePathOf] at hv hok hsucc hfp
    unfold processImage
    simp [hv, hok, hsucc, hfp, hfpok]
  · intro hv hok hd
    simp only [imagePathOf] at hv hok hd
    unfold processImage
    rcases hd with hd | hd
    · simp [hv, hok, hd]
    · cases hsucc : (preprocessProblematicImage w.ops
          (joinPath (joinPath w.rootPath c) f)).1.success
      · simp [hv, hok, hsucc]
      · simp [hv, hok, hsucc, hd]

/-- Counterexample to C6 as stated: a single discovered image that
fails to render even after repair yields two pages, not exactly one. -/
theorem one_page_per_image_counterexample :
    createMangaPDF wRetryFail "out.pdf" = .ok outRetryFail ∧
    outRetryFail.stats.totalImages = 1 ∧
    outRetryFail.pages.length = 2 := ⟨outRetryFail_run, rfl, rfl⟩

/-- Witness for the amended C6: concrete two-page failure case and
one-page success case. -/
theorem pages_per_image_cases_witness :
    (processImage wRetryFail "ch1" "001.jpg" {}).pages =
      [.aborted, .errorNote "001.jpg"] ∧
    (processImage wGood "ch1" "001.jpg" {}).pages =
      [.content (imagePathOf wGood "ch1" "001.jpg")] := by
  constructor
  · exact (pages_per_image_cases wRetryFail "ch1" "001.jpg" {}).2.2.2.1
      ("root/ch1/001.jpg" ++ ".fixed.jpg") (by decide) rfl rfl rfl rfl
  · exact (pages_per_image_cases wGood "ch1" "001.jpg" {}).2.1 (by decide) rfl

/-- C8: chapters are enumerated as the numerically sorted
subdirectories, images as the numerically sorted allow-listed
non-artifact files of each chapter, and the emitted pages follow
chapter-then-image order. -/
theorem assemble_order (w : World) :
    List.Sorted numLE (chapterList w) ∧
    (chapterList w).Perm
      ((w.rootEntries.filter (fun e => e.2)).map (fun e => e.1)) ∧
    (∀ c, List.Sorted numLE (chapterImages w c) ∧
      (chapterImages w c).Perm ((w.chapterFiles c).filter isChapterImage) ∧
      (∀ f, f ∈ chapterImages w c ↔
        (f ∈ w.chapterFiles c ∧ isChapterImage f = true))) ∧
    (∀ name out, createMangaPDF w name = .ok out →
      out.pages = (chapterList w).flatMap (fun c =>
        (chapterImages w c).flatMap (fun f => (processImage w c f {}).pages))) := by
  refine ⟨List.sorted_insertionSort numLE _, List.perm_insertionSort numLE _, ?_, ?_⟩
  · intro c
    refine ⟨List.sorted_insertionSort numLE _, List.perm_insertionSort numLE _, ?_⟩
    intro f
    unfold chapterImages sortByNum
    rw [List.mem_insertionSort, List.mem_filter]
  · intro name out h
    unfold createMangaPDF at h
    dsimp only at h
    split at h
    · exact Except.noConfusion h
    · injection h with h2
      subst h2
      exact runChapters_pages w (chapterList w) {}

/-- Witness for C8 on the concrete one-chapter world. -/
theorem assemble_order_witness :
    List.Sorted numLE (chapterList wRetryFail) ∧
    outRetryFail.pages = (chapterList wRetryFail).flatMap (fun c =>
      (chapterImages wRetryFail c).flatMap
        (fun f => (processImage wRetryFail c f {}).pages)) :=
  ⟨(assemble_order wRetryFail).1,
   (assemble_order wRetryFail).2.2.2 "out.pdf" outRetryFail outRetryFail_run⟩

/-- C9 (amended): the temporary repaired file is deleted before moving
on when the retry with the fixed file succeeds; when the retry fails
the file remains on disk; on every other path no temporary file
exists. -/
theorem temp_cleanup_on_retry (w : World) (c f : String) (s : RunStats) :
    (∀ fp, (validateImageFile (w.fileData (imagePathOf w c f))).valid = true →
      w.imageOk (imagePathOf w c f) = false →
      (preprocessProblematicImage w.ops (imagePathOf w c f)).1.success = true →
      (preprocessProblematicImage w.ops (imagePathOf w c f)).1.fixedPath = some fp →
      w.imageOk fp = true →
      (processImage w c f s).tempsLeft = []) ∧
    (∀ fp, (validateImageFile (w.fileData (imagePathOf w c f))).valid = true →
      w.imageOk (imagePathOf w c f) = false →
      (preprocessProblematicImage w.ops (imagePathOf w c f)).1.success = true →
      (preprocessProblematicImage w.ops (imagePathOf w c f)).1.fixedPath = some fp →
      w.imageOk fp = false →
      (processImage w c f s).tempsLeft = [fp]) ∧
    ((validateImageFile (w.fileData (imagePathOf w c f))).valid = false →
      (processImage w c f s).tempsLeft = []) ∧
    ((validateImageFile (w.fileData (imagePathOf w c f))).valid = true →
      w.imageOk (imagePathOf w c f) = true →
      (processImage w c f s).tempsLeft = []) ∧
    ((validateImageFile (w.fileData (imagePathOf w c f))).valid = true →
      w.imageOk (imagePathOf w c f) = false →
      ((preprocessProblematicImage w.ops (imagePathOf w c f)).1.success = false ∨
        (preprocessProblematicImage w.ops (imagePathOf w c f)).1.fixedPath = none) →
      (processImage w c f s).tempsLeft = []) := by
  refine ⟨?_, ?_, ?_, ?_, ?_⟩
  · intro fp hv hok hsucc hfp hfpok
    simp only [imagePathOf] at hv hok hsucc hfp
    obtain ⟨spec, hw⟩ := preprocess_writes_of_fixedPath w.ops
      (joinPath (joinPath w.rootPath c) f) fp hsucc hfp
    unfold processImage
    simp [hv, hok, hsucc, hfp, hfpok, hw]
  · intro fp hv hok hsucc hfp hfpok
    simp only [imagePathOf] at hv hok hsucc hfp
    obtain ⟨spec, hw⟩ := preprocess_writes_of_fixedPath w.ops
      (joinPath (joinPath w.rootPath c) f) fp hsucc hfp
    unfold processImage
    simp [hv, hok, hsucc, hfp, hfpok, hw]
  · intro hv
    simp only [imagePathOf] at hv
    unfold processImage
    simp [hv]
  · intro hv hok
    simp only [imagePathOf] at hv hok
    unfold processImage
    simp [hv, hok]
  · intro hv hok hd
    simp only [imagePathOf] at hv hok hd
    have hw := preprocess_writes_of_no_fix w.ops
      (joinPath (joinPath w.rootPath c) f) hd
    unfold processImage
    rcases hd with hd | hd
    · simp [hv, hok, hd, hw]
    · cases hsucc : (preprocessProblematicImage w.ops
          (joinPath (joinPath w.rootPath c) f)).1.success
      · simp [hv, hok, hsucc, hw]
      · simp [hv, hok, hsucc, hd, hw]

/-- Counterexample to C9 as stated: on the retry-failure world the
fixed file written for the single image is still on disk when the run
completes. -/
theorem temp_cleanup_counterexample :
    createMangaPDF wRetryFail "out.pdf" = .ok outRetryFail ∧
    outRetryFail.tempsLeft = ["root/ch1/001.jpg.fixed.jpg"] ∧
    outRetryFail.tempsLeft ≠ [] := ⟨outRetryFail_run, rfl, by decide⟩

/-- Witness for the amended C9: cleanup after a successful direct draw
and the leftover after a failed retry, on concrete worlds. -/
theorem temp_cleanup_on_retry_witness :
    (processImage wGood "ch1" "001.jpg" {}).tempsLeft = [] ∧
    (processImage wRetryFail "ch1" "001.jpg" {}).tempsLeft =
      ["root/ch1/001.jpg" ++ ".fixed.jpg"] := by
  constructor
  · exact (temp_cleanup_on_retry wGood "ch1" "001.jpg" {}).2.2.2.1 (by decide) rfl
  · exact (temp_cleanup_on_retry wRetryFail "ch1" "001.jpg" {}).2.1
      ("root/ch1/001.jpg" ++ ".fixed.jpg") (by decide) rfl rfl rfl rfl

end MangaScraper
